import Mathlib

/-!
Verification of the particle animation engine in `spiral_particles.py`.

Shallow embedding conventions:
* Python floats are modelled as exact rationals (`ℚ`); the claims at stake
  concern order of operations, counts, ranges, filters and bucket tables,
  all robust to this idealisation.
* `math.cos`, `math.sin` and `math.pi` are abstracted as parameters
  (`Trig`): the claims do not depend on trigonometric values, only on the
  data flow around them.  Where a claim needs it, the true facts
  `|cos| ≤ 1`, `|sin| ≤ 1` are taken as hypotheses.
* The global `random` state is modelled by explicit draw streams, one per
  call site.  `random.random()` draws are rationals (hypothesised in
  `[0,1)` where a claim needs it); `random.randint(a, b)` — inclusive on
  both ends in Python — is modelled by reducing an arbitrary natural draw
  into `[a, b]`; `random.choice(lst)` by an arbitrary natural draw taken
  `mod len(lst)`.  Both reductions are surjective onto the legal outcome
  set, so the reachable behaviours are exactly those of the program.
-/

/-- ANSI color strings, from the module-level `COLORS` list. -/
def COLORS : List String :=
  ["\x1b[91m", "\x1b[92m", "\x1b[93m", "\x1b[94m", "\x1b[95m", "\x1b[96m", "\x1b[97m"]

/-- The module-level `RESET` string. -/
def RESET : String := "\x1b[0m"

/-- The `@dataclass Particle`: position and velocity are Python floats
(modelled as `ℚ`), life counters Python ints (`ℤ`), color an ANSI string,
char a single glyph. -/
structure Particle where
  x : ℚ
  y : ℚ
  vx : ℚ
  vy : ℚ
  life : ℤ
  max_life : ℤ
  color : String
  char : Char
deriving DecidableEq

/-- The mutable state of `SpiralSimulator` (the fields the claims touch:
canvas size, particle store, frame counter, center). -/
structure SimState where
  width : Nat
  height : Nat
  particles : List Particle
  frame : Nat
  center_x : Nat
  center_y : Nat
deriving DecidableEq

/-- `SpiralSimulator.__init__` with explicit canvas dimensions (the
terminal-size probe is configuration, out of the embedded core). -/
def init (w h : Nat) : SimState :=
  { width := w, height := h, particles := [], frame := 0
    center_x := w / 2, center_y := h / 2 }

/-- Abstract stand-ins for `math.cos`, `math.sin`, `math.pi` acting on the
rational model of floats. -/
structure Trig where
  cosF : ℚ → ℚ
  sinF : ℚ → ℚ
  piF : ℚ

/-- Python `random.randint a b`: a uniform integer in `[a, b]` — inclusive
on BOTH ends — modelled by reducing an arbitrary natural draw into the
range (surjective onto `[a, b]` when `a ≤ b`). -/
def randint (a b : ℤ) (draw : Nat) : ℤ :=
  a + (draw : ℤ) % (b - a + 1)

/-- Python `random.choice lst` (for nonempty concrete lists): an arbitrary
natural draw taken `mod` the length, surjective onto the list. -/
def pyChoice {α : Type} (l : List α) (dflt : α) (draw : Nat) : α :=
  l.getD (draw % l.length) dflt

/-- Draw streams consumed by `emit_spiral`, indexed by the loop variable
`i`: three `random.random()` calls (speed, x-jitter, y-jitter) and one
`random.randint(0, 30)` call per particle. -/
structure SpiralRand where
  speedU : Nat → ℚ
  jxU : Nat → ℚ
  jyU : Nat → ℚ
  lifeD : Nat → Nat

/-- Draw streams consumed by `emit_burst`: the firing `random.random()`
draw, the two `randint` center offsets, then per-particle speed,
color-choice, char-choice and `randint(0, 15)` draws. -/
structure BurstRand where
  fire : ℚ
  bxD : Nat
  byD : Nat
  speedU : Nat → ℚ
  colorD : Nat → Nat
  charD : Nat → Nat
  lifeD : Nat → Nat

/-- The fixed 5-symbol glyph list `chars` in `emit_spiral`. -/
def spiralChars : List Char := ['.', '*', '+', 'o', 'O']

/-- The `i`-th particle built by the `emit_spiral` loop body. -/
def spiralParticle (t : Trig) (r : SpiralRand) (s : SimState) (i : Nat) : Particle :=
  let angle : ℚ := (s.frame : ℚ) * 0.25 + (i : ℚ) * 2 * t.piF / 12
  let radius : ℚ := 1 + t.sinF ((s.frame : ℚ) * 0.02) * 0.5
  let emit_x : ℚ := (s.center_x : ℚ) + t.cosF angle * radius * 3
  let emit_y : ℚ := (s.center_y : ℚ) + t.sinF angle * radius * 1.5
  let speed : ℚ := 0.6 + r.speedU i * 0.4
  let vx : ℚ := t.cosF angle * speed + (r.jxU i - 0.5) * 0.2
  let vy : ℚ := t.sinF angle * speed * 0.5 + (r.jyU i - 0.5) * 0.1
  let color := COLORS.getD (s.frame % COLORS.length) RESET
  let char := spiralChars.getD (i % spiralChars.length) ' '
  let life : ℤ := 60 + randint 0 30 (r.lifeD i)
  { x := emit_x, y := emit_y, vx := vx, vy := vy
    life := life, max_life := life, color := color, char := char }

/-- `SpiralSimulator.emit_spiral`: unconditionally appends 12 particles. -/
def emit_spiral (t : Trig) (r : SpiralRand) (s : SimState) : SimState :=
  { s with particles := s.particles ++ (List.range 12).map (spiralParticle t r s) }

/-- The fixed glyph list `['*', '#', '@']` sampled by `emit_burst`. -/
def burstChars : List Char := ['*', '#', '@']

/-- The `i`-th particle built by the `emit_burst` loop body, from the
sampled burst center `(bx, shifted_y)`. -/
def burstParticle (t : Trig) (r : BurstRand) (bx bY : ℤ) (i : Nat) : Particle :=
  let angle : ℚ := ((i : ℚ) / 15) * 2 * t.piF
  let speed : ℚ := 0.5 + r.speedU i * 0.6
  let vx : ℚ := t.cosF angle * speed
  let vy : ℚ := t.sinF angle * speed * 0.5
  let color := pyChoice COLORS RESET (r.colorD i)
  let char := pyChoice burstChars ' ' (r.charD i)
  { x := (bx : ℚ), y := (bY : ℚ), vx := vx, vy := vy
    life := 35 + randint 0 15 (r.lifeD i), max_life := 50
    color := color, char := char }

/-- `SpiralSimulator.emit_burst`: with the firing draw below 0.04, appends
15 particles from a random point near the center; otherwise no-op. -/
def emit_burst (t : Trig) (r : BurstRand) (s : SimState) : SimState :=
  if r.fire < 0.04 then
    let burst_x : ℤ := (s.center_x : ℤ) + randint (-8) 8 r.bxD
    let burst_y : ℤ := (s.center_y : ℤ) + randint (-4) 4 r.byD
    { s with particles :=
        s.particles ++ (List.range 15).map (burstParticle t r burst_x burst_y) }
  else s

/-- The glyph-fade table at the end of the `update` per-particle body:
recompute the char from `life_ratio = life / max_life`. -/
def fadeChar (life max_life : ℤ) (c : Char) : Char :=
  let life_ratio : ℚ := (life : ℚ) / (max_life : ℚ)
  if life_ratio < 0.25 then '.'
  else if life_ratio < 0.5 then '+'
  else if life_ratio < 0.75 then 'o'
  else c

/-- The per-particle body of the `update` loop, in source order: position
`+=` velocity, gravity on `vy`, friction on both components, life
decrement, glyph fade. -/
def stepParticle (p : Particle) : Particle :=
  let x := p.x + p.vx
  let y := p.y + p.vy
  let vy := p.vy + 0.015
  let vx := p.vx * 0.99
  let vy := vy * 0.99
  let life := p.life - 1
  let char := fadeChar life p.max_life p.char
  { p with x := x, y := y, vx := vx, vy := vy, life := life, char := char }

/-- The survival predicate of the removal filter at the end of `update`:
`p.life > 0 and 0 <= p.x < width and 0 <= p.y < height`. -/
def alive (w h : Nat) (p : Particle) : Bool :=
  decide (0 < p.life ∧ 0 ≤ p.x ∧ p.x < (w : ℚ) ∧ 0 ≤ p.y ∧ p.y < (h : ℚ))

/-- `SpiralSimulator.update`: frame increment, spiral then burst emission,
per-particle integration, then the removal filter. -/
def update (t : Trig) (sr : SpiralRand) (br : BurstRand) (s : SimState) : SimState :=
  let s1 := { s with frame := s.frame + 1 }
  let s2 := emit_spiral t sr s1
  let s3 := emit_burst t br s2
  let s4 := { s3 with particles := s3.particles.map stepParticle }
  { s4 with particles := s4.particles.filter (alive s4.width s4.height) }

/-- Python `int()` truncation toward zero on the rational model. -/
def pyInt (q : ℚ) : ℤ :=
  if q < 0 then -((-q).floor) else q.floor

/-- One grid cell: the glyph and the color written there, `(' ', none)`
when empty.  (The source keeps two parallel grids, `grid` and
`color_grid`, always written together under the same in-bounds guard at
the same indices; a single grid of pairs is observationally identical.) -/
abbrev Cell := Char × Option String

/-- The empty cell a fresh grid is filled with. -/
def emptyCell : Cell := (' ', none)

/-- The fresh `width × height` grid buffer allocated at the top of
`render`. -/
def emptyGrid (w h : Nat) : List (List Cell) :=
  List.replicate h (List.replicate w emptyCell)

/-- One iteration of the particle-placement loop in `render`: truncate the
position; if in bounds, overwrite that cell with the particle's glyph and
color. -/
def placeParticle (w h : Nat) (g : List (List Cell)) (p : Particle) : List (List Cell) :=
  let ix := pyInt p.x
  let iy := pyInt p.y
  if 0 ≤ ix ∧ ix < (w : ℤ) ∧ 0 ≤ iy ∧ iy < (h : ℤ) then
    g.set iy.toNat ((g.getD iy.toNat []).set ix.toNat (p.char, some p.color))
  else g

/-- The particle-placement pass of `render`: fold the placement loop over
the collection in order, starting from the fresh grid. -/
def placeAll (w h : Nat) (ps : List Particle) : List (List Cell) :=
  ps.foldl (placeParticle w h) (emptyGrid w h)

/-- Serialisation of one cell in the line-building loop of `render`. -/
def renderCell (c : Cell) : String :=
  match c.2 with
  | some col => col ++ String.singleton c.1 ++ RESET
  | none => String.singleton c.1

/-- The frame produced by `render` for given dimensions and collection:
the placed grid serialised row by row, rows joined with newlines. -/
def renderFrame (w h : Nat) (ps : List Particle) : String :=
  String.intercalate "\n"
    ((placeAll w h ps).map (fun row => String.join (row.map renderCell)))

/-- `SpiralSimulator.render`: reads only the canvas dimensions and the
particle collection. -/
def render (s : SimState) : String :=
  renderFrame s.width s.height s.particles

/-! ### Field-level unfolding lemmas (definitional) -/

lemma spiralParticle_x (t : Trig) (r : SpiralRand) (s : SimState) (i : Nat) :
    (spiralParticle t r s i).x =
      (s.center_x : ℚ) +
        t.cosF ((s.frame : ℚ) * 0.25 + (i : ℚ) * 2 * t.piF / 12) *
          (1 + t.sinF ((s.frame : ℚ) * 0.02) * 0.5) * 3 := rfl

lemma spiralParticle_y (t : Trig) (r : SpiralRand) (s : SimState) (i : Nat) :
    (spiralParticle t r s i).y =
      (s.center_y : ℚ) +
        t.sinF ((s.frame : ℚ) * 0.25 + (i : ℚ) * 2 * t.piF / 12) *
          (1 + t.sinF ((s.frame : ℚ) * 0.02) * 0.5) * 1.5 := rfl

lemma spiralParticle_vx (t : Trig) (r : SpiralRand) (s : SimState) (i : Nat) :
    (spiralParticle t r s i).vx =
      t.cosF ((s.frame : ℚ) * 0.25 + (i : ℚ) * 2 * t.piF / 12) * (0.6 + r.speedU i * 0.4) +
        (r.jxU i - 0.5) * 0.2 := rfl

lemma spiralParticle_vy (t : Trig) (r : SpiralRand) (s : SimState) (i : Nat) :
    (spiralParticle t r s i).vy =
      t.sinF ((s.frame : ℚ) * 0.25 + (i : ℚ) * 2 * t.piF / 12) * (0.6 + r.speedU i * 0.4) * 0.5 +
        (r.jyU i - 0.5) * 0.1 := rfl

lemma spiralParticle_life (t : Trig) (r : SpiralRand) (s : SimState) (i : Nat) :
    (spiralParticle t r s i).life = 60 + randint 0 30 (r.lifeD i) := rfl

lemma spiralParticle_max_life (t : Trig) (r : SpiralRand) (s : SimState) (i : Nat) :
    (spiralParticle t r s i).max_life = 60 + randint 0 30 (r.lifeD i) := rfl

lemma stepParticle_x (p : Particle) : (stepParticle p).x = p.x + p.vx := rfl

lemma stepParticle_y (p : Particle) : (stepParticle p).y = p.y + p.vy := rfl

lemma stepParticle_vx (p : Particle) : (stepParticle p).vx = p.vx * 0.99 := rfl

lemma stepParticle_vy (p : Particle) : (stepParticle p).vy = (p.vy + 0.015) * 0.99 := rfl

lemma stepParticle_life (p : Particle) : (stepParticle p).life = p.life - 1 := rfl

lemma stepParticle_char (p : Particle) :
    (stepParticle p).char = fadeChar (p.life - 1) p.max_life p.char := rfl

lemma emit_spiral_width (t : Trig) (r : SpiralRand) (s : SimState) :
    (emit_spiral t r s).width = s.width := rfl

lemma emit_spiral_height (t : Trig) (r : SpiralRand) (s : SimState) :
    (emit_spiral t r s).height = s.height := rfl

lemma emit_burst_width (t : Trig) (r : BurstRand) (s : SimState) :
    (emit_burst t r s).width = s.width := by
  unfold emit_burst; split <;> rfl

lemma emit_burst_height (t : Trig) (r : BurstRand) (s : SimState) :
    (emit_burst t r s).height = s.height := by
  unfold emit_burst; split <;> rfl

/-- The particle collection right after this tick's emissions and the
per-particle integration pass, before the removal filter. -/
def postIntegration (t : Trig) (sr : SpiralRand) (br : BurstRand) (s : SimState) :
    List Particle :=
  ((emit_burst t br (emit_spiral t sr { s with frame := s.frame + 1 })).particles).map
    stepParticle

/-- C3: one integration tick, in source order: position += velocity using
the pre-tick velocity, then gravity on the vertical component, then
friction on both components, then the life decrement; hence the gravity
and friction applied in a tick never feed into that same tick's position
change. -/
theorem integration_order_of_operations (p : Particle) :
    (stepParticle p).x = p.x + p.vx ∧
    (stepParticle p).y = p.y + p.vy ∧
    (stepParticle p).vx = p.vx * 0.99 ∧
    (stepParticle p).vy = (p.vy + 0.015) * 0.99 ∧
    (stepParticle p).life = p.life - 1 :=
  ⟨rfl, rfl, rfl, rfl, rfl⟩

/-- C10: integration never changes a particle's color tag or its
max_life, at the single-particle level and across the whole integration
pass of a tick. -/
theorem integration_preserves_color_and_max_life (p : Particle) (ps : List Particle) :
    (stepParticle p).color = p.color ∧
    (stepParticle p).max_life = p.max_life ∧
    (ps.map stepParticle).map Particle.color = ps.map Particle.color ∧
    (ps.map stepParticle).map Particle.max_life = ps.map Particle.max_life := by
  refine ⟨rfl, rfl, ?_, ?_⟩ <;>
    · rw [List.map_map]
      exact List.map_congr_left fun q _ => rfl

/-- C8: rasterization is deterministic and reads nothing but the canvas
dimensions and the ordered particle collection: two states agreeing on
those render to identical frames, and the frame factors through
`renderFrame` applied to exactly those three inputs. -/
theorem render_deterministic (s1 s2 : SimState)
    (hw : s1.width = s2.width) (hh : s1.height = s2.height)
    (hp : s1.particles = s2.particles) :
    render s1 = render s2 ∧
    render s1 = renderFrame s1.width s1.height s1.particles := by
  constructor
  · unfold render
    rw [hw, hh, hp]
  · rfl

/-- C2: after a tick, the active set is exactly the post-integration
collection filtered by the survival predicate: a particle is present iff
it is in the post-integration collection with `life > 0` and position in
`[0, width) × [0, height)`, and the surviving particles form an
order-preserving sublist. -/
theorem active_set_filter_characterisation (t : Trig) (sr : SpiralRand) (br : BurstRand)
    (s : SimState) (q : Particle) :
    (update t sr br s).particles =
      (postIntegration t sr br s).filter (alive s.width s.height) ∧
    ((q ∈ (update t sr br s).particles) ↔
      q ∈ postIntegration t sr br s ∧
        (0 < q.life ∧ 0 ≤ q.x ∧ q.x < (s.width : ℚ) ∧ 0 ≤ q.y ∧ q.y < (s.height : ℚ))) ∧
    ((update t sr br s).particles.Sublist (postIntegration t sr br s)) := by
  have h1 : (update t sr br s).particles =
      (postIntegration t sr br s).filter (alive s.width s.height) := by
    simp only [update, postIntegration, emit_burst_width, emit_spiral_width,
      emit_burst_height, emit_spiral_height]
  refine ⟨h1, ?_, ?_⟩
  · rw [h1, List.mem_filter]
    unfold alive
    rw [decide_eq_true_eq]
  · rw [h1]
    exact List.filter_sublist _

/-- Fade-bucket index of a life ratio: 0 = most faded, 3 = unchanged. -/
def bucketIdx (r : ℚ) : Nat :=
  if r < 0.25 then 0 else if r < 0.5 then 1 else if r < 0.75 then 2 else 3

lemma fadeChar_eq_bucket (l m : ℤ) (c : Char) :
    fadeChar l m c = ['.', '+', 'o', c].getD (bucketIdx ((l : ℚ) / (m : ℚ))) c := by
  simp only [fadeChar, bucketIdx]
  split_ifs <;> rfl

lemma bucketIdx_mono (r2 r : ℚ) (h : r2 ≤ r) : bucketIdx r2 ≤ bucketIdx r := by
  simp only [bucketIdx]
  split_ifs <;> first | omega | linarith

/-- C4: the glyph written by integration is recomputed from the ratio
`r = life / max_life` taken after the life decrement; it follows the
four-bucket table (`r < 0.25 → most faded`, then `+`, then `o`, and
`r ≥ 0.75` leaves the current — hence spawn — glyph unchanged); below the
unchanged bucket it is independent of the incoming glyph (and of the
color tag, which `fadeChar` does not even read); and the bucket index is
monotone in the ratio, so a ratio that only decreases never yields a
less-faded bucket. -/
theorem glyph_fade_table (p : Particle) (l m : ℤ) (c c2 : Char) (r r2 : ℚ) :
    ((stepParticle p).char = fadeChar (p.life - 1) p.max_life p.char) ∧
    (((l : ℚ) / (m : ℚ)) < 0.25 → fadeChar l m c = '.') ∧
    (0.25 ≤ ((l : ℚ) / (m : ℚ)) → ((l : ℚ) / (m : ℚ)) < 0.5 → fadeChar l m c = '+') ∧
    (0.5 ≤ ((l : ℚ) / (m : ℚ)) → ((l : ℚ) / (m : ℚ)) < 0.75 → fadeChar l m c = 'o') ∧
    (0.75 ≤ ((l : ℚ) / (m : ℚ)) → fadeChar l m c = c) ∧
    (((l : ℚ) / (m : ℚ)) < 0.75 → fadeChar l m c = fadeChar l m c2) ∧
    (r2 ≤ r → bucketIdx r2 ≤ bucketIdx r) ∧
    (fadeChar l m c = ['.', '+', 'o', c].getD (bucketIdx ((l : ℚ) / (m : ℚ))) c) := by
  refine ⟨rfl, ?_, ?_, ?_, ?_, ?_, bucketIdx_mono r2 r, fadeChar_eq_bucket l m c⟩ <;>
    · intros
      simp only [fadeChar]
      split_ifs <;> first | rfl | linarith

instance : Inhabited Particle :=
  ⟨{ x := 0, y := 0, vx := 0, vy := 0, life := 0, max_life := 0, color := RESET, char := ' ' }⟩

/-- Witness for the fade table: a ratio in each interesting bucket. -/
theorem glyph_fade_table_witness :
    ((10 : ℚ) / (60 : ℚ)) < 0.25 ∧ fadeChar 10 60 'O' = '.' ∧
    (0.5 : ℚ) ≤ ((30 : ℚ) / (60 : ℚ)) ∧ fadeChar 30 60 'O' = 'o' ∧
    (0.75 : ℚ) ≤ ((45 : ℚ) / (60 : ℚ)) ∧ fadeChar 45 60 'O' = 'O' ∧
    bucketIdx ((10 : ℚ) / 60) ≤ bucketIdx ((30 : ℚ) / 60) := by
  have h1 := glyph_fade_table default 10 60 'O' 'O' ((30 : ℚ) / 60) ((10 : ℚ) / 60)
  have h2 := glyph_fade_table default 30 60 'O' 'O' 0 0
  have h3 := glyph_fade_table default 45 60 'O' 'O' 0 0
  refine ⟨by norm_num, h1.2.1 (by norm_num), by norm_num,
    h2.2.2.2.1 (by norm_num) (by norm_num), by norm_num,
    h3.2.2.2.2.1 (by norm_num), h1.2.2.2.2.2.2.1 (by norm_num)⟩

/-! ### Concrete trig / draw-stream instances used on concrete inputs -/

/-- Degenerate trig stand-in (all claims settled with it are about data
flow, not trigonometric values). -/
def tZero : Trig := { cosF := fun _ => 0, sinF := fun _ => 0, piF := 0 }

/-- Spiral draw streams that always draw 0. -/
def srZero : SpiralRand :=
  { speedU := fun _ => 0, jxU := fun _ => 0, jyU := fun _ => 0, lifeD := fun _ => 0 }

/-- Spiral draw streams whose `randint(0, 30)` draw always lands on 30. -/
def srMax : SpiralRand :=
  { speedU := fun _ => 0, jxU := fun _ => 0, jyU := fun _ => 0, lifeD := fun _ => 30 }

/-- Burst draw streams whose firing draw fails (`1 ≥ 0.04`). -/
def brOff : BurstRand :=
  { fire := 1, bxD := 0, byD := 0, speedU := fun _ => 0
    colorD := fun _ => 0, charD := fun _ => 0, lifeD := fun _ => 0 }

/-- Burst draw streams that fire, pick char index 1 (`#`) and the maximal
`randint(0, 15)` draw. -/
def brHash : BurstRand :=
  { fire := 0, bxD := 0, byD := 0, speedU := fun _ => 0
    colorD := fun _ => 0, charD := fun _ => 1, lifeD := fun _ => 15 }

/-- Burst draw streams that do not fire but share `brHash`'s char draw. -/
def brTwin : BurstRand :=
  { fire := 0.5, bxD := 3, byD := 2, speedU := fun _ => 0
    colorD := fun _ => 4, charD := fun _ => 1, lifeD := fun _ => 3 }

lemma randint_nonneg (b : ℤ) (d : Nat) (hb : 0 ≤ b) : 0 ≤ randint 0 b d := by
  unfold randint
  have := Int.emod_nonneg (d : ℤ) (by omega : b - 0 + 1 ≠ 0)
  omega

lemma randint_le (b : ℤ) (d : Nat) (hb : 0 ≤ b) : randint 0 b d ≤ b := by
  unfold randint
  have := Int.emod_lt_of_pos (d : ℤ) (by omega : (0 : ℤ) < b - 0 + 1)
  omega

/-- C1 (amended): spiral emission appends exactly 12 particles, each with
spawn life a uniform random integer in the INCLUSIVE range [60, 90] —
`60 + randint(0, 30)`, both ends attainable — and max_life equal to that
spawn life.  Every value of the inclusive range is reachable by some
draw. -/
theorem spiral_emission_count_and_life (t : Trig) (r : SpiralRand) (s : SimState) :
    (emit_spiral t r s).particles = s.particles ++ (List.range 12).map (spiralParticle t r s) ∧
    ((List.range 12).map (spiralParticle t r s)).length = 12 ∧
    (∀ p ∈ (List.range 12).map (spiralParticle t r s),
      60 ≤ p.life ∧ p.life ≤ 90 ∧ p.max_life = p.life) ∧
    (∀ v : ℤ, 60 ≤ v → v ≤ 90 → ∃ d : Nat, (60 : ℤ) + randint 0 30 d = v) := by
  refine ⟨rfl, by simp, ?_, ?_⟩
  · intro p hp
    rw [List.mem_map] at hp
    obtain ⟨i, -, rfl⟩ := hp
    rw [spiralParticle_life, spiralParticle_max_life]
    have h1 := randint_nonneg 30 (r.lifeD i) (by norm_num)
    have h2 := randint_le 30 (r.lifeD i) (by norm_num)
    omega
  · intro v h60 h90
    refine ⟨(v - 60).toNat, ?_⟩
    unfold randint
    have hcast : ((v - 60).toNat : ℤ) = v - 60 := Int.toNat_of_nonneg (by omega)
    rw [hcast]
    rw [Int.emod_eq_of_lt (by omega) (by omega)]
    ring

/-- Witness for the amended spiral-emission claim at a concrete draw. -/
theorem spiral_emission_count_and_life_witness :
    60 ≤ (spiralParticle tZero srZero (init 80 24) 0).life ∧
    (spiralParticle tZero srZero (init 80 24) 0).life ≤ 90 ∧
    (spiralParticle tZero srZero (init 80 24) 0).max_life =
      (spiralParticle tZero srZero (init 80 24) 0).life := by
  exact (spiral_emission_count_and_life tZero srZero (init 80 24)).2.2.1
    (spiralParticle tZero srZero (init 80 24) 0)
    (List.mem_map.mpr ⟨0, List.mem_range.mpr (by norm_num), rfl⟩)

/-- Counterexample to C1 as stated: with the `randint(0, 30)` draw landing
on 30 the spawn life is 90, outside the claimed half-open range
`[60, 90)`. -/
theorem spiral_life_range_counterexample :
    ¬ ∀ p ∈ (emit_spiral tZero srMax (init 80 24)).particles, p.life < 90 := by
  intro h
  have hm : spiralParticle tZero srMax (init 80 24) 0 ∈
      (emit_spiral tZero srMax (init 80 24)).particles := by
    unfold emit_spiral
    simp only [List.mem_append, List.mem_map]
    exact Or.inr ⟨0, List.mem_range.mpr (by norm_num), rfl⟩
  have := h _ hm
  rw [spiralParticle_life] at this
  have : (90 : ℤ) < 90 := by
    have hr : randint 0 30 (srMax.lifeD 0) = 30 := by decide
    omega
  omega

/-! ### Burst emission lemmas -/

lemma burstParticle_life (t : Trig) (r : BurstRand) (bx bY : ℤ) (i : Nat) :
    (burstParticle t r bx bY i).life = 35 + randint 0 15 (r.lifeD i) := rfl

lemma burstParticle_max_life (t : Trig) (r : BurstRand) (bx bY : ℤ) (i : Nat) :
    (burstParticle t r bx bY i).max_life = 50 := rfl

lemma burstParticle_char (t : Trig) (r : BurstRand) (bx bY : ℤ) (i : Nat) :
    (burstParticle t r bx bY i).char = pyChoice burstChars ' ' (r.charD i) := rfl

lemma burstParticle_color (t : Trig) (r : BurstRand) (bx bY : ℤ) (i : Nat) :
    (burstParticle t r bx bY i).color = pyChoice COLORS RESET (r.colorD i) := rfl

lemma emit_burst_fired (t : Trig) (r : BurstRand) (s : SimState) (h : r.fire < 0.04) :
    (emit_burst t r s).particles = s.particles ++ (List.range 15).map
      (burstParticle t r ((s.center_x : ℤ) + randint (-8) 8 r.bxD)
        ((s.center_y : ℤ) + randint (-4) 4 r.byD)) := by
  simp only [emit_burst, if_pos h]

lemma emit_burst_skipped (t : Trig) (r : BurstRand) (s : SimState) (h : ¬ r.fire < 0.04) :
    emit_burst t r s = s := by
  simp only [emit_burst, if_neg h]

lemma pyChoice_mem {α : Type} (l : List α) (dflt : α) (d : Nat) (h : l ≠ []) :
    pyChoice l dflt d ∈ l := by
  unfold pyChoice
  have hl : 0 < l.length := List.length_pos.mpr h
  have hd : d % l.length < l.length := Nat.mod_lt _ hl
  rw [List.getD_eq_getElem?_getD, List.getElem?_eq_getElem hd]
  exact List.getElem_mem hd

/-- A full-life concrete particle used to instantiate hypotheses. -/
def qFull : Particle :=
  { x := 0, y := 0, vx := 0, vy := 0, life := 50, max_life := 50, color := RESET, char := '*' }

/-- C5 (amended): every burst particle has spawn life a uniform random
integer in the INCLUSIVE range [35, 50] — `35 + randint(0, 15)`, so life
CAN equal max_life — and max_life fixed at 50 regardless of the sampled
life; hence life never exceeds max_life, the fade ratio satisfies
`0 ≤ r ≤ 1` for any particle alive with `life ≤ max_life`, and
integration preserves `life ≤ max_life`. -/
theorem burst_life_bounds (t : Trig) (r : BurstRand) (s : SimState) (bx bY : ℤ)
    (i : Nat) (q : Particle) :
    (r.fire < 0.04 →
      (emit_burst t r s).particles = s.particles ++ (List.range 15).map
        (burstParticle t r ((s.center_x : ℤ) + randint (-8) 8 r.bxD)
          ((s.center_y : ℤ) + randint (-4) 4 r.byD))) ∧
    (¬ r.fire < 0.04 → emit_burst t r s = s) ∧
    (35 ≤ (burstParticle t r bx bY i).life ∧ (burstParticle t r bx bY i).life ≤ 50 ∧
      (burstParticle t r bx bY i).max_life = 50) ∧
    (0 < q.life → q.life ≤ q.max_life →
      0 ≤ (q.life : ℚ) / (q.max_life : ℚ) ∧ (q.life : ℚ) / (q.max_life : ℚ) ≤ 1) ∧
    (q.life ≤ q.max_life → (stepParticle q).life ≤ (stepParticle q).max_life) := by
  refine ⟨emit_burst_fired t r s, emit_burst_skipped t r s, ?_, ?_, ?_⟩
  · rw [burstParticle_life, burstParticle_max_life]
    have h1 := randint_nonneg 15 (r.lifeD i) (by norm_num)
    have h2 := randint_le 15 (r.lifeD i) (by norm_num)
    omega
  · intro h1 h2
    have hm : (0 : ℤ) < q.max_life := lt_of_lt_of_le h1 h2
    have hmq : (0 : ℚ) < (q.max_life : ℚ) := by exact_mod_cast hm
    constructor
    · apply div_nonneg _ (le_of_lt hmq)
      exact_mod_cast le_of_lt h1
    · rw [div_le_one hmq]
      exact_mod_cast h2
  · intro h
    rw [stepParticle_life]
    have : (stepParticle q).max_life = q.max_life := rfl
    omega

/-- Witness for the amended burst-life claim at concrete draws. -/
theorem burst_life_bounds_witness :
    (emit_burst tZero brHash (init 80 24)).particles =
      (init 80 24).particles ++ (List.range 15).map
        (burstParticle tZero brHash
          (((init 80 24).center_x : ℤ) + randint (-8) 8 brHash.bxD)
          (((init 80 24).center_y : ℤ) + randint (-4) 4 brHash.byD)) ∧
    emit_burst tZero brOff (init 80 24) = init 80 24 ∧
    (35 ≤ (burstParticle tZero brHash 32 8 0).life ∧
      (burstParticle tZero brHash 32 8 0).life ≤ 50) ∧
    (0 ≤ (qFull.life : ℚ) / (qFull.max_life : ℚ) ∧
      (qFull.life : ℚ) / (qFull.max_life : ℚ) ≤ 1) ∧
    (stepParticle qFull).life ≤ (stepParticle qFull).max_life := by
  obtain ⟨h1, -, h3, h4, h5⟩ := burst_life_bounds tZero brHash (init 80 24) 32 8 0 qFull
  obtain ⟨-, h2, -, -, -⟩ := burst_life_bounds tZero brOff (init 80 24) 0 0 0 qFull
  exact ⟨h1 (by norm_num [brHash]), h2 (by norm_num [brOff]), ⟨h3.1, h3.2.1⟩,
    h4 (by decide) (by decide), h5 (by decide)⟩

/-- Counterexample to C5 as stated: with the `randint(0, 15)` draw landing
on 15 a burst particle spawns with life 50, outside the claimed half-open
range `[35, 50)`. -/
theorem burst_life_range_counterexample :
    ¬ ∀ p ∈ (emit_burst tZero brHash (init 80 24)).particles, p.life < 50 := by
  intro h
  have hfire : brHash.fire < 0.04 := by norm_num [brHash]
  have hmem : burstParticle tZero brHash
      (((init 80 24).center_x : ℤ) + randint (-8) 8 brHash.bxD)
      (((init 80 24).center_y : ℤ) + randint (-4) 4 brHash.byD) 0 ∈
      (emit_burst tZero brHash (init 80 24)).particles := by
    rw [emit_burst_fired tZero brHash (init 80 24) hfire]
    simp only [List.mem_append, List.mem_map]
    exact Or.inr ⟨0, List.mem_range.mpr (by norm_num), rfl⟩
  have hlife := h _ hmem
  rw [burstParticle_life] at hlife
  have hr : randint 0 15 (brHash.lifeD 0) = 15 := by decide
  omega

/-- C6 (amended): each burst particle samples its color tag from the full
7-color set and its glyph from the FIXED 3-SYMBOL set `['*', '#', '@']`
(not the spiral policy's 5-symbol set); both samples depend only on their
own draw — every member of each set is reachable by some draw, and equal
draws give equal results across any burst index, burst center, frame or
trig context. -/
theorem burst_sampling_independence (t : Trig) (r : BurstRand) (bx bY : ℤ) (i : Nat) :
    (burstParticle t r bx bY i).color = pyChoice COLORS RESET (r.colorD i) ∧
    (burstParticle t r bx bY i).char = pyChoice burstChars ' ' (r.charD i) ∧
    (burstParticle t r bx bY i).color ∈ COLORS ∧
    (burstParticle t r bx bY i).char ∈ burstChars ∧
    (∀ c ∈ burstChars, ∃ d : Nat, pyChoice burstChars ' ' d = c) ∧
    (∀ col ∈ COLORS, ∃ d : Nat, pyChoice COLORS RESET d = col) ∧
    (∀ t2 r2 bx2 bY2 j, r.charD i = r2.charD j →
      (burstParticle t r bx bY i).char = (burstParticle t2 r2 bx2 bY2 j).char) ∧
    (∀ t2 r2 bx2 bY2 j, r.colorD i = r2.colorD j →
      (burstParticle t r bx bY i).color = (burstParticle t2 r2 bx2 bY2 j).color) := by
  refine ⟨rfl, rfl, pyChoice_mem _ _ _ (by decide), pyChoice_mem _ _ _ (by decide),
    ?_, ?_, ?_, ?_⟩
  · intro c hc
    fin_cases hc
    · exact ⟨0, rfl⟩
    · exact ⟨1, rfl⟩
    · exact ⟨2, rfl⟩
  · intro col hcol
    fin_cases hcol
    · exact ⟨0, rfl⟩
    · exact ⟨1, rfl⟩
    · exact ⟨2, rfl⟩
    · exact ⟨3, rfl⟩
    · exact ⟨4, rfl⟩
    · exact ⟨5, rfl⟩
    · exact ⟨6, rfl⟩
  · intro t2 r2 bx2 bY2 j hd
    rw [burstParticle_char, burstParticle_char, hd]
  · intro t2 r2 bx2 bY2 j hd
    rw [burstParticle_color, burstParticle_color, hd]

/-- Witness for the amended burst-sampling claim at concrete draws. -/
theorem burst_sampling_independence_witness :
    (burstParticle tZero brHash 32 8 0).char ∈ burstChars ∧
    (burstParticle tZero brHash 32 8 0).char = (burstParticle tZero brTwin 7 7 5).char := by
  obtain ⟨-, -, -, h4, -, -, h7, -⟩ := burst_sampling_independence tZero brHash 32 8 0
  exact ⟨h4, h7 tZero brTwin 7 7 5 rfl⟩

/-- Counterexample to C6 as stated: a burst particle can take the glyph
`#`, which is not in the 5-symbol set the spiral policy indexes. -/
theorem burst_glyph_set_counterexample :
    ¬ ∀ p ∈ (emit_burst tZero brHash (init 80 24)).particles, p.char ∈ spiralChars := by
  intro h
  have hfire : brHash.fire < 0.04 := by norm_num [brHash]
  have hmem : burstParticle tZero brHash
      (((init 80 24).center_x : ℤ) + randint (-8) 8 brHash.bxD)
      (((init 80 24).center_y : ℤ) + randint (-4) 4 brHash.byD) 0 ∈
      (emit_burst tZero brHash (init 80 24)).particles := by
    rw [emit_burst_fired tZero brHash (init 80 24) hfire]
    simp only [List.mem_append, List.mem_map]
    exact Or.inr ⟨0, List.mem_range.mpr (by norm_num), rfl⟩
  have hchar := h _ hmem
  rw [burstParticle_char] at hchar
  have hh : pyChoice burstChars ' ' (brHash.charD 0) = '#' := by decide
  rw [hh] at hchar
  exact absurd hchar (by decide)

/-! ### Rasterizer cell lemmas -/

/-- Read one cell of a grid (empty cell when out of range). -/
def cellAt (g : List (List Cell)) (x y : Nat) : Cell := (g.getD y []).getD x emptyCell

/-- Whether a particle's truncated integer position is in bounds and lands
on cell `(x, y)` — the write condition of the placement loop. -/
def hitsCell (w h x y : Nat) (p : Particle) : Bool :=
  decide (0 ≤ pyInt p.x ∧ pyInt p.x < (w : ℤ) ∧ 0 ≤ pyInt p.y ∧ pyInt p.y < (h : ℤ) ∧
    (pyInt p.x).toNat = x ∧ (pyInt p.y).toNat = y)

/-- The last particle in collection order whose write condition holds for
cell `(x, y)`. -/
def lastWriter (w h x y : Nat) (ps : List Particle) : Option Particle :=
  ps.foldl (fun acc p => if hitsCell w h x y p then some p else acc) none

lemma getD_set_self {α : Type} (l : List α) (i : Nat) (v d : α) (h : i < l.length) :
    (l.set i v).getD i d = v := by
  rw [List.getD_eq_getElem?_getD, List.getElem?_set_eq_of_lt v h]
  rfl

lemma getD_set_ne {α : Type} (l : List α) (i j : Nat) (v d : α) (h : i ≠ j) :
    (l.set i v).getD j d = l.getD j d := by
  rw [List.getD_eq_getElem?_getD, List.getD_eq_getElem?_getD, List.getElem?_set_ne h]

lemma foldl_lastWriter (w h x y : Nat) (ps : List Particle) (a : Option Particle) :
    ps.foldl (fun acc p => if hitsCell w h x y p then some p else acc) a =
      match lastWriter w h x y ps with
      | some q => some q
      | none => a := by
  induction ps generalizing a with
  | nil => rfl
  | cons p ps ih =>
    rw [List.foldl_cons, ih]
    have hR : lastWriter w h x y (p :: ps) = match lastWriter w h x y ps with
        | some q => some q
        | none => if hitsCell w h x y p then some p else none := by
      show ps.foldl _ _ = _
      rw [ih]
    cases hlw : lastWriter w h x y ps <;> cases hhit : hitsCell w h x y p <;>
      simp [hhit, hlw, hR]

lemma placeParticle_length (w h : Nat) (g : List (List Cell)) (p : Particle) :
    (placeParticle w h g p).length = g.length := by
  simp only [placeParticle]
  split
  · simp
  · rfl

lemma placeParticle_row_length (w h : Nat) (g : List (List Cell)) (p : Particle)
    (hg : g.length = h) (i : Nat) (hi : i < h) :
    ((placeParticle w h g p).getD i []).length = (g.getD i []).length := by
  simp only [placeParticle]
  split
  case isTrue hb =>
    obtain ⟨h1, h2, h3, h4⟩ := hb
    by_cases hiy : (pyInt p.y).toNat = i
    · subst hiy
      rw [getD_set_self _ _ _ _ (by rw [hg]; omega)]
      simp
    · rw [getD_set_ne _ _ _ _ _ hiy]
  case isFalse => rfl

lemma cellAt_placeParticle (w h x y : Nat) (g : List (List Cell)) (p : Particle)
    (hg : g.length = h) (hrow : ∀ i, i < h → (g.getD i []).length = w)
    (hx : x < w) (hy : y < h) :
    cellAt (placeParticle w h g p) x y =
      if hitsCell w h x y p then (p.char, some p.color) else cellAt g x y := by
  by_cases hhit : hitsCell w h x y p = true
  · rw [if_pos hhit]
    rw [hitsCell, decide_eq_true_eq] at hhit
    obtain ⟨h1, h2, h3, h4, hxx, hyy⟩ := hhit
    simp only [placeParticle, cellAt]
    rw [if_pos ⟨h1, h2, h3, h4⟩]
    subst hyy
    subst hxx
    rw [getD_set_self _ _ _ _ (by rw [hg]; omega)]
    rw [getD_set_self _ _ _ _ (by rw [hrow (pyInt p.y).toNat (by omega)]; omega)]
  · rw [if_neg hhit]
    simp only [placeParticle, cellAt]
    split
    next hb =>
      obtain ⟨h1, h2, h3, h4⟩ := hb
      have hnot : ¬((pyInt p.x).toNat = x ∧ (pyInt p.y).toNat = y) := by
        intro ⟨hxx, hyy⟩
        exact hhit (by rw [hitsCell, decide_eq_true_eq]; exact ⟨h1, h2, h3, h4, hxx, hyy⟩)
      by_cases hyy : (pyInt p.y).toNat = y
      · have hxx : (pyInt p.x).toNat ≠ x := fun hxx => hnot ⟨hxx, hyy⟩
        subst hyy
        rw [getD_set_self _ _ _ _ (by rw [hg]; omega)]
        rw [getD_set_ne _ _ _ _ _ hxx]
      · rw [getD_set_ne _ _ _ _ _ hyy]
    next => rfl

lemma cellAt_foldl (w h x y : Nat) (ps : List Particle) (g : List (List Cell))
    (hg : g.length = h) (hrow : ∀ i, i < h → (g.getD i []).length = w)
    (hx : x < w) (hy : y < h) :
    cellAt (ps.foldl (placeParticle w h) g) x y =
      match lastWriter w h x y ps with
      | some p => (p.char, some p.color)
      | none => cellAt g x y := by
  induction ps generalizing g with
  | nil => rfl
  | cons p ps ih =>
    rw [List.foldl_cons]
    rw [ih (placeParticle w h g p) (by rw [placeParticle_length]; exact hg)
      (fun i hi => by rw [placeParticle_row_length w h g p hg i hi]; exact hrow i hi)]
    have hR : lastWriter w h x y (p :: ps) = match lastWriter w h x y ps with
        | some q => some q
        | none => if hitsCell w h x y p then some p else none := by
      show ps.foldl _ _ = _
      rw [foldl_lastWriter]
    rw [hR, cellAt_placeParticle w h x y g p hg hrow hx hy]
    cases hlw : lastWriter w h x y ps <;> cases hhit : hitsCell w h x y p <;>
      simp [hhit, hlw]

lemma emptyGrid_row (w h i : Nat) (hi : i < h) :
    (emptyGrid w h).getD i [] = List.replicate w emptyCell := by
  unfold emptyGrid
  rw [List.getD_eq_getElem?_getD, List.getElem?_replicate]
  simp [hi]

lemma cellAt_emptyGrid (w h x y : Nat) (hy : y < h) :
    cellAt (emptyGrid w h) x y = emptyCell := by
  rw [cellAt, emptyGrid_row w h y hy, List.getD_eq_getElem?_getD, List.getElem?_replicate]
  split <;> rfl

/-- C9: in the placed grid, every in-bounds cell holds the glyph and color
tag of the last particle in collection order whose truncated position
hits it — later particles overwrite earlier ones, no blending — and a
cell hit by no particle is the empty cell. -/
theorem render_last_writer_wins (w h x y : Nat) (ps : List Particle)
    (hx : x < w) (hy : y < h) :
    cellAt (placeAll w h ps) x y =
      match lastWriter w h x y ps with
      | some p => (p.char, some p.color)
      | none => emptyCell := by
  unfold placeAll
  rw [cellAt_foldl w h x y ps (emptyGrid w h) (by simp [emptyGrid])
    (fun i hi => by rw [emptyGrid_row w h i hi]; simp) hx hy]
  cases hlw : lastWriter w h x y ps <;> simp [cellAt_emptyGrid w h x y hy]

lemma ratFloor_eq_intFloor (q : ℚ) : q.floor = ⌊q⌋ := by
  rw [Rat.floor_def, ← Rat.floor_def']

lemma pyInt_zero : pyInt 0 = 0 := by
  unfold pyInt
  rw [if_neg (lt_irrefl 0), ratFloor_eq_intFloor]
  exact Int.floor_zero

/-- A concrete particle sitting on cell `(0, 0)`. -/
def pW : Particle :=
  { x := 0, y := 0, vx := 0, vy := 0, life := 3, max_life := 3, color := RESET, char := 'A' }

/-- Witness for the last-writer-wins cell law on a concrete 2×2 grid. -/
theorem render_last_writer_wins_witness :
    cellAt (placeAll 2 2 [pW]) 0 0 = (pW.char, some pW.color) := by
  have hhit : hitsCell 2 2 0 0 pW = true := by
    rw [hitsCell, decide_eq_true_eq]
    have hx : pyInt pW.x = 0 := pyInt_zero
    have hy : pyInt pW.y = 0 := pyInt_zero
    rw [hx, hy]
    omega
  have hlw : lastWriter 2 2 0 0 [pW] = some pW := by
    show (if hitsCell 2 2 0 0 pW then some pW else none) = some pW
    rw [if_pos hhit]
  rw [render_last_writer_wins 2 2 0 0 [pW] (by norm_num) (by norm_num), hlw]

/-- Two concrete states agreeing on canvas and particles, differing in the
frame counter. -/
def sA : SimState :=
  { width := 3, height := 2, particles := [pW], frame := 0, center_x := 1, center_y := 1 }

/-- `sA` with a different frame counter. -/
def sB : SimState := { sA with frame := 99 }

/-- Witness for rasterizer determinism: states differing only in the frame
counter render identically. -/
theorem render_deterministic_witness : render sA = render sB :=
  (render_deterministic sA sB rfl rfl rfl).1

/-- The state of the §8 scenario (80×24 canvas) right after the first
tick's frame increment, at which the tick's emissions happen. -/
def sOne : SimState := { init 80 24 with frame := 1 }

lemma step_bounds_aux (c sa sb u jx jy : ℚ) (L : ℤ)
    (hc1 : -1 ≤ c) (hc2 : c ≤ 1) (hs1 : -1 ≤ sa) (hs2 : sa ≤ 1)
    (hr1 : -1 ≤ sb) (hr2 : sb ≤ 1) (hu1 : 0 ≤ u) (hu2 : u < 1)
    (hx1 : 0 ≤ jx) (hx2 : jx < 1) (hy1 : 0 ≤ jy) (hy2 : jy < 1) (hL : 0 ≤ L) :
    0 < 60 + L - 1 ∧
    0 ≤ (40 + c * (1 + sb * 0.5) * 3) + (c * (0.6 + u * 0.4) + (jx - 0.5) * 0.2) ∧
    (40 + c * (1 + sb * 0.5) * 3) + (c * (0.6 + u * 0.4) + (jx - 0.5) * 0.2) < 80 ∧
    0 ≤ (12 + sa * (1 + sb * 0.5) * 1.5) + (sa * (0.6 + u * 0.4) * 0.5 + (jy - 0.5) * 0.1) ∧
    (12 + sa * (1 + sb * 0.5) * 1.5) + (sa * (0.6 + u * 0.4) * 0.5 + (jy - 0.5) * 0.1) < 24 := by
  have q1 : 0 ≤ (1 + c) * (1 + sb * 0.5) := mul_nonneg (by linarith) (by linarith)
  have q2 : 0 ≤ (1 - c) * (1 + sb * 0.5) := mul_nonneg (by linarith) (by linarith)
  have q3 : 0 ≤ (1 + sa) * (1 + sb * 0.5) := mul_nonneg (by linarith) (by linarith)
  have q4 : 0 ≤ (1 - sa) * (1 + sb * 0.5) := mul_nonneg (by linarith) (by linarith)
  have q5 : 0 ≤ (1 + c) * (0.6 + u * 0.4) := mul_nonneg (by linarith) (by linarith)
  have q6 : 0 ≤ (1 - c) * (0.6 + u * 0.4) := mul_nonneg (by linarith) (by linarith)
  have q7 : 0 ≤ (1 + sa) * (0.6 + u * 0.4) := mul_nonneg (by linarith) (by linarith)
  have q8 : 0 ≤ (1 - sa) * (0.6 + u * 0.4) := mul_nonneg (by linarith) (by linarith)
  refine ⟨by omega, ?_, ?_, ?_, ?_⟩ <;> linarith [q1, q2, q3, q4, q5, q6, q7, q8]

lemma spiral_step_alive (t : Trig) (sr : SpiralRand)
    (hcos : ∀ q : ℚ, -1 ≤ t.cosF q ∧ t.cosF q ≤ 1)
    (hsin : ∀ q : ℚ, -1 ≤ t.sinF q ∧ t.sinF q ≤ 1)
    (hsp : ∀ i : Nat, 0 ≤ sr.speedU i ∧ sr.speedU i < 1)
    (hjx : ∀ i : Nat, 0 ≤ sr.jxU i ∧ sr.jxU i < 1)
    (hjy : ∀ i : Nat, 0 ≤ sr.jyU i ∧ sr.jyU i < 1)
    (i : Nat) :
    alive 80 24 (stepParticle (spiralParticle t sr sOne i)) = true := by
  simp only [alive, decide_eq_true_eq]
  rw [stepParticle_life, stepParticle_x, stepParticle_y,
    spiralParticle_life, spiralParticle_x, spiralParticle_y,
    spiralParticle_vx, spiralParticle_vy]
  have hcx : ((sOne.center_x : ℚ)) = 40 := by norm_num [sOne, init]
  have hcy : ((sOne.center_y : ℚ)) = 12 := by norm_num [sOne, init]
  have h80 : ((80 : ℕ) : ℚ) = 80 := by norm_num
  have h24 : ((24 : ℕ) : ℚ) = 24 := by norm_num
  rw [hcx, hcy, h80, h24]
  have haux := step_bounds_aux
    (t.cosF ((sOne.frame : ℚ) * 0.25 + (i : ℚ) * 2 * t.piF / 12))
    (t.sinF ((sOne.frame : ℚ) * 0.25 + (i : ℚ) * 2 * t.piF / 12))
    (t.sinF ((sOne.frame : ℚ) * 0.02))
    (sr.speedU i) (sr.jxU i) (sr.jyU i) (randint 0 30 (sr.lifeD i))
    (hcos _).1 (hcos _).2 (hsin _).1 (hsin _).2 (hsin _).1 (hsin _).2
    (hsp i).1 (hsp i).2 (hjx i).1 (hjx i).2 (hjy i).1 (hjy i).2
    (randint_nonneg 30 (sr.lifeD i) (by norm_num))
  exact haux

/-- C7: on an 80×24 canvas, for any RNG outcome whose burst draw fails on
tick 1 (firing draw ≥ 0.04), one tick leaves the active set equal to the
12 spiral particles emitted that tick, each already integrated once; and
each such particle's post-tick position equals its spawn position plus
its spawn velocity — the gravity and friction of that tick do not touch
the position already updated.  The hypotheses on `cos`, `sin` and the
uniform draws are the true ranges of the Python primitives. -/
theorem first_tick_scenario (t : Trig) (sr : SpiralRand) (br : BurstRand)
    (hcos : ∀ q : ℚ, -1 ≤ t.cosF q ∧ t.cosF q ≤ 1)
    (hsin : ∀ q : ℚ, -1 ≤ t.sinF q ∧ t.sinF q ≤ 1)
    (hsp : ∀ i : Nat, 0 ≤ sr.speedU i ∧ sr.speedU i < 1)
    (hjx : ∀ i : Nat, 0 ≤ sr.jxU i ∧ sr.jxU i < 1)
    (hjy : ∀ i : Nat, 0 ≤ sr.jyU i ∧ sr.jyU i < 1)
    (hb : ¬ br.fire < 0.04) :
    (update t sr br (init 80 24)).particles =
      ((List.range 12).map (spiralParticle t sr sOne)).map stepParticle ∧
    (update t sr br (init 80 24)).particles.length = 12 ∧
    (∀ i : Nat,
      (stepParticle (spiralParticle t sr sOne i)).x =
        (spiralParticle t sr sOne i).x + (spiralParticle t sr sOne i).vx ∧
      (stepParticle (spiralParticle t sr sOne i)).y =
        (spiralParticle t sr sOne i).y + (spiralParticle t sr sOne i).vy) := by
  have hupd : update t sr br (init 80 24) =
      { emit_spiral t sr sOne with particles :=
          (((emit_spiral t sr sOne).particles).map stepParticle).filter (alive 80 24) } := by
    simp only [update]
    rw [emit_burst_skipped t br _ hb]
    rfl
  have hparts : (update t sr br (init 80 24)).particles =
      (((List.range 12).map (spiralParticle t sr sOne)).map stepParticle).filter
        (alive 80 24) := by
    rw [hupd]
    rfl
  have hall : ∀ p ∈ ((List.range 12).map (spiralParticle t sr sOne)).map stepParticle,
      alive 80 24 p = true := by
    intro p hp
    rw [List.mem_map] at hp
    obtain ⟨q, hq, rfl⟩ := hp
    rw [List.mem_map] at hq
    obtain ⟨i, -, rfl⟩ := hq
    exact spiral_step_alive t sr hcos hsin hsp hjx hjy i
  have hfilter : (((List.range 12).map (spiralParticle t sr sOne)).map stepParticle).filter
      (alive 80 24) = ((List.range 12).map (spiralParticle t sr sOne)).map stepParticle :=
    List.filter_eq_self.mpr hall
  refine ⟨by rw [hparts, hfilter], by rw [hparts, hfilter]; simp, fun i => ⟨rfl, rfl⟩⟩

/-- Witness for the first-tick scenario at a concrete RNG outcome. -/
theorem first_tick_scenario_witness :
    (update tZero srZero brOff (init 80 24)).particles.length = 12 :=
  (first_tick_scenario tZero srZero brOff
    (fun q => by norm_num [tZero]) (fun q => by norm_num [tZero])
    (fun i => by norm_num [srZero]) (fun i => by norm_num [srZero])
    (fun i => by norm_num [srZero]) (by norm_num [brOff])).2.1
